import Mathlib

/-!
Verification of the task scheduling and execution engine of the
digital-employee-website repository (`app/utils/task.py`).

The engine is shallowly embedded: Python dicts become association lists
over `Nat` keys, `asyncio.Task` objects become records of their observable
flags (`done`, cancellation requested, finished-by-cancellation), datetimes
become minute counts since 1970-01-01T00:00, and the cooperative-concurrency
control flow of each method is translated statement by statement into a pure
state-passing function.  Exceptions are modelled by explicit outcome
constructors; in particular `asyncio.CancelledError` (a `BaseException` on
the Python versions this code targets, hence NOT caught by
`except Exception`) is kept distinct from ordinary exceptions.
-/

set_option autoImplicit false

namespace TaskEngine

/-! ## Association-list model of Python dicts (keys : Nat) -/

/-- First value bound to key `k`, i.e. Python `d[k]` / `k in d`. -/
def lookupKey {α : Type} (l : List (Nat × α)) (k : Nat) : Option α :=
  match l with
  | [] => none
  | (k', v) :: rest => if k' = k then some v else lookupKey rest k

/-- Python `del d[k]`: remove the binding of key `k`. -/
def eraseKey {α : Type} : List (Nat × α) → Nat → List (Nat × α)
  | [], _ => []
  | (k', v) :: rest, k => if k' = k then eraseKey rest k else (k', v) :: eraseKey rest k

/-- Python `d[k] = v`: replace any old binding of `k` by `v`. -/
def insertKey {α : Type} (l : List (Nat × α)) (k : Nat) (v : α) : List (Nat × α) :=
  eraseKey l k ++ [(k, v)]

theorem lookupKey_eraseKey_self {α : Type} (l : List (Nat × α)) (k : Nat) :
    lookupKey (eraseKey l k) k = none := by
  induction l with
  | nil => rfl
  | cons p rest ih =>
    cases p with
    | mk a v =>
      by_cases h : a = k
      · simpa [eraseKey, h] using ih
      · simpa [eraseKey, lookupKey, h] using ih

theorem lookupKey_eraseKey_ne {α : Type} (l : List (Nat × α)) (k k' : Nat) (h : k' ≠ k) :
    lookupKey (eraseKey l k) k' = lookupKey l k' := by
  induction l with
  | nil => rfl
  | cons p rest ih =>
    cases p with
    | mk a v =>
      by_cases ha : a = k
      · subst ha
        have hne : ¬a = k' := fun hh => h (hh ▸ rfl)
        simpa [eraseKey, lookupKey, hne] using ih
      · by_cases hk : a = k'
        · simp [eraseKey, lookupKey, ha, hk, h]
        · simpa [eraseKey, lookupKey, ha, hk] using ih

theorem lookupKey_append {α : Type} (l₁ l₂ : List (Nat × α)) (k : Nat) :
    lookupKey (l₁ ++ l₂) k =
      (lookupKey l₁ k).elim (lookupKey l₂ k) some := by
  induction l₁ with
  | nil => simp [lookupKey]
  | cons p rest ih =>
    cases p with
    | mk a v =>
      by_cases h : a = k
      · simp [lookupKey, h]
      · simp [lookupKey, h, ih]

theorem lookupKey_insertKey_self {α : Type} (l : List (Nat × α)) (k : Nat) (v : α) :
    lookupKey (insertKey l k v) k = some v := by
  unfold insertKey
  rw [lookupKey_append, lookupKey_eraseKey_self]
  simp [lookupKey]

theorem lookupKey_insertKey_ne {α : Type} (l : List (Nat × α)) (k k' : Nat) (v : α)
    (h : k' ≠ k) :
    lookupKey (insertKey l k v) k' = lookupKey l k' := by
  unfold insertKey
  rw [lookupKey_append, lookupKey_eraseKey_ne l k k' h]
  cases hl : lookupKey l k' with
  | none => simp [lookupKey, Ne.symm h]
  | some w => simp

/-! ## Character-level model of the Python string operations used -/

/-- The whitespace characters removed by Python `str.strip()`
(space, tab, newline, carriage return, vertical tab, form feed). -/
def isPyWs (c : Char) : Bool :=
  c = ' ' || c = Char.ofNat 9 || c = Char.ofNat 10 || c = Char.ofNat 13 ||
    c = Char.ofNat 11 || c = Char.ofNat 12

/-- Python `str.strip()` on the character list of a string. -/
def pyStripChars (cs : List Char) : List Char :=
  ((cs.dropWhile isPyWs).reverse.dropWhile isPyWs).reverse

/-- Python `str.split()` (split on whitespace runs, no empty tokens). -/
def splitWsAux : List Char → List Char → List (List Char)
  | [], acc => if acc = [] then [] else [acc.reverse]
  | c :: rest, acc =>
    if isPyWs c then
      if acc = [] then splitWsAux rest [] else acc.reverse :: splitWsAux rest []
    else splitWsAux rest (c :: acc)

def splitWs (cs : List Char) : List (List Char) := splitWsAux cs []

/-- Python `str.split(sep)` for a one-character separator (keeps empty tokens). -/
def splitOnCharAux (sep : Char) : List Char → List Char → List (List Char)
  | [], acc => [acc.reverse]
  | c :: rest, acc =>
    if c = sep then acc.reverse :: splitOnCharAux sep rest []
    else splitOnCharAux sep rest (c :: acc)

def splitOnChar (sep : Char) (cs : List Char) : List (List Char) :=
  splitOnCharAux sep cs []

/-- Python `int(s)` restricted to non-negative decimal digit strings
(returns `none` where `int(...)` would raise `ValueError`). -/
def parseNatChars (cs : List Char) : Option Nat :=
  if cs = [] then none
  else if cs.all Char.isDigit then
    some (cs.foldl (fun n c => n * 10 + (c.toNat - 48)) 0)
  else none

theorem splitWsAux_all_ws (cs : List Char) (h : ∀ c ∈ cs, isPyWs c = true) :
    splitWsAux cs [] = [] := by
  induction cs with
  | nil => rfl
  | cons c rest ih =>
    have hc : isPyWs c = true := h c (by simp)
    simp only [splitWsAux, hc, if_true, if_pos rfl]
    exact ih (fun x hx => h x (by simp [hx]))

theorem splitWs_of_strip_empty (cs : List Char) (h : pyStripChars cs = []) :
    splitWs cs = [] := by
  have hall : ∀ c ∈ cs, isPyWs c = true := by
    have h1 : (cs.dropWhile isPyWs).reverse.dropWhile isPyWs = [] := by
      have := congrArg List.reverse h
      simpa [pyStripChars] using this
    have h2 : ∀ c ∈ (cs.dropWhile isPyWs).reverse, isPyWs c = true :=
      (List.dropWhile_eq_nil_iff).1 h1
    have h3 : cs.dropWhile isPyWs = [] := by
      cases hdw : cs.dropWhile isPyWs with
      | nil => rfl
      | cons a tl =>
        have ha : isPyWs a = true := by
          apply h2
          rw [hdw]
          simp
        have := List.head?_dropWhile_not isPyWs cs
        rw [hdw] at this
        simp at this
        exact absurd ha (by simp [this])
    exact fun c hc => (List.dropWhile_eq_nil_iff).1 h3 c hc
  exact splitWsAux_all_ws cs hall

/-! ## Cron evaluator

`CronValidator` in `task.py` delegates expression parsing and next-time
computation to the external `croniter` library.  That library is not part of
the repository, so its semantics are modelled from the spec: a five-field
(minute hour day month weekday) cron grammar, and next-run computation
returning the earliest time strictly after the base time that satisfies the
expression.  Times are minutes since 1970-01-01T00:00. -/

/-- One parsed cron field: the set of accepted values, plus whether the
field's text started with `*` (used for the standard day-of-month /
day-of-week disjunction rule). -/
structure CronField where
  isStar : Bool
  allowed : List Nat
deriving DecidableEq, Repr

structure CronSpec where
  minute : CronField
  hour : CronField
  day : CronField
  month : CronField
  weekday : CronField
deriving DecidableEq, Repr

/-- `[lo, lo+1, ..., hi]`. -/
def rangeVals (lo hi : Nat) : List Nat :=
  (List.range (hi + 1 - lo)).map (· + lo)

/-- `[lo, lo+k, lo+2k, ...] ∩ [lo, hi]` for `*/k`. -/
def stepVals (lo hi k : Nat) : List Nat :=
  (List.range ((hi - lo) / k + 1)).map (fun i => lo + i * k)

/-- Modelled from the spec: one item of a cron field list — a plain value
or a `a-b` range, bounds-checked against the field's domain. -/
def parseItem (lo hi : Nat) (cs : List Char) : Option (List Nat) :=
  match splitOnChar (Char.ofNat 45) cs with
  | [a] => do
      let v ← parseNatChars a
      if lo ≤ v && v ≤ hi then pure [v] else none
  | [a, b] => do
      let va ← parseNatChars a
      let vb ← parseNatChars b
      if lo ≤ va && va ≤ vb && vb ≤ hi then pure (rangeVals va vb) else none
  | _ => none

/-- Modelled from the spec: a whole cron field — `*`, `*/k`, or a
comma-separated list of items. -/
def parseField (lo hi : Nat) (cs : List Char) : Option CronField :=
  if cs = ['*'] then some ⟨true, rangeVals lo hi⟩
  else
    match cs with
    | '*' :: '/' :: k =>
      match parseNatChars k with
      | some step => if 0 < step then some ⟨true, stepVals lo hi step⟩ else none
      | none => none
    | _ =>
      match (splitOnChar ',' cs).mapM (parseItem lo hi) with
      | some ls => some ⟨false, ls.flatten⟩
      | none => none

/-- Modelled from the spec: the five-field cron grammar accepted by the
`croniter` dependency (weekday `7` is normalised to Sunday `0`). -/
def parseCronChars (cs : List Char) : Option CronSpec :=
  match splitWs cs with
  | [mi, h, d, mo, w] => do
      let fmi ← parseField 0 59 mi
      let fh ← parseField 0 23 h
      let fd ← parseField 1 31 d
      let fmo ← parseField 1 12 mo
      let fw ← parseField 0 7 w
      pure ⟨fmi, fh, fd, fmo, ⟨fw.isStar, fw.allowed.map (· % 7)⟩⟩
  | _ => none

def parseCron (s : String) : Option CronSpec :=
  parseCronChars s.data

/-- Gregorian date from a count of days since 1970-01-01
(Howard Hinnant's civil-from-days algorithm). -/
def civilFromDays (z0 : Nat) : Nat × Nat × Nat :=
  let z := z0 + 719468
  let era := z / 146097
  let doe := z % 146097
  let yoe := (doe - doe / 1460 + doe / 36524 - doe / 146096) / 365
  let y := yoe + era * 400
  let doy := doe - (365 * yoe + yoe / 4 - yoe / 100)
  let mp := (5 * doy + 2) / 153
  let d := doy - (153 * mp + 2) / 5 + 1
  let m := if mp < 10 then mp + 3 else mp - 9
  (if m ≤ 2 then y + 1 else y, m, d)

/-- Days since 1970-01-01 of a Gregorian date (inverse of `civilFromDays`). -/
def daysFromCivil (y m d : Nat) : Nat :=
  let yAdj := if m ≤ 2 then y - 1 else y
  let era := yAdj / 400
  let yoe := yAdj % 400
  let doy := (153 * (if m ≤ 2 then m + 9 else m - 3) + 2) / 5 + d - 1
  let doe := yoe * 365 + yoe / 4 - yoe / 100 + doy
  era * 146097 + doe - 719468

/-- Minutes since 1970-01-01T00:00 of a concrete wall-clock instant. -/
def minutesOf (y m d hh mi : Nat) : Nat :=
  daysFromCivil y m d * 1440 + hh * 60 + mi

/-- Modelled from the spec: whether the instant `n` (minutes since epoch)
satisfies a parsed cron expression.  Day-of-month and day-of-week combine
with OR when both are restricted, AND otherwise (standard cron rule). -/
def cronMatches (c : CronSpec) (n : Nat) : Bool :=
  let minute := n % 60
  let hour := n / 60 % 24
  let days := n / 1440
  let ymd := civilFromDays days
  let d := ymd.2.2
  let mo := ymd.2.1
  let wd := (days + 4) % 7
  c.minute.allowed.contains minute && c.hour.allowed.contains hour &&
    c.month.allowed.contains mo &&
    (if c.day.isStar || c.weekday.isStar then
      c.day.allowed.contains d && c.weekday.allowed.contains wd
    else
      c.day.allowed.contains d || c.weekday.allowed.contains wd)

/-- Modelled from the spec: linear search for the earliest matching instant
strictly after `base`; fuel bounds the search, and exhausting it models the
defensive "internal computation failed" case. -/
def searchNext (c : CronSpec) (base : Nat) : Nat → Option Nat
  | 0 => none
  | fuel + 1 =>
    if cronMatches c (base + 1) then some (base + 1)
    else searchNext c (base + 1) fuel

/-- One year of minutes: the search window for a next run time. -/
def searchFuel : Nat := 527040

/-- `CronValidator.validate_cron_expression` (task.py lines 22-42): false for
empty or whitespace-only input, else true iff the stripped expression parses. -/
def validate_cron_expression (cron_expression : String) : Bool :=
  if cron_expression.data = [] ∨ pyStripChars cron_expression.data = [] then false
  else (parseCron cron_expression).isSome

/-- `CronValidator.get_next_run_time` (task.py lines 44-65): `none` when the
expression fails validation, otherwise the croniter-model next run strictly
after `base_time`; any internal failure also yields `none`. -/
def get_next_run_time (cron_expression : String) (base_time : Nat) : Option Nat :=
  if validate_cron_expression cron_expression = false then none
  else
    match parseCron cron_expression with
    | none => none
    | some c => searchNext c base_time searchFuel

/-- Spec-side helper: `n` satisfies the (parsed) expression. -/
def cronMatchesExpr (expr : String) (n : Nat) : Bool :=
  match parseCron expr with
  | some c => cronMatches c n
  | none => false

/-- Spec-side helper: the internal next-run computation produced no result. -/
def nextComputationFails (expr : String) (base : Nat) : Bool :=
  match parseCron expr with
  | none => true
  | some c => (searchNext c base searchFuel).isNone

theorem searchNext_sound (c : CronSpec) :
    ∀ (fuel base r : Nat), searchNext c base fuel = some r →
      base < r ∧ cronMatches c r = true ∧
        ∀ u, base < u → u < r → cronMatches c u = false := by
  intro fuel
  induction fuel with
  | zero => intro base r h; simp [searchNext] at h
  | succ n ih =>
    intro base r h
    by_cases hm : cronMatches c (base + 1) = true
    · rw [searchNext, if_pos hm] at h
      cases h
      exact ⟨Nat.lt_succ_self base, hm, fun u hu1 hu2 => absurd hu2 (by omega)⟩
    · rw [searchNext, if_neg hm] at h
      obtain ⟨h1, h2, h3⟩ := ih (base + 1) r h
      refine ⟨by omega, h2, fun u hu1 hu2 => ?_⟩
      rcases Nat.lt_or_ge u (base + 1) with hlt | hge
      · omega
      · rcases Nat.eq_or_lt_of_le hge with heq | hgt
        · rw [← heq]; exact Bool.not_eq_true _ ▸ (by simpa using hm)
        · exact h3 u hgt hu2

theorem validate_false_iff_parse_none (expr : String) :
    validate_cron_expression expr = false ↔ parseCron expr = none := by
  constructor
  · intro h
    unfold validate_cron_expression at h
    by_cases hc : expr.data = [] ∨ pyStripChars expr.data = []
    · rcases hc with hc | hc
      · unfold parseCron parseCronChars
        rw [hc]
        rfl
      · unfold parseCron parseCronChars
        rw [splitWs_of_strip_empty expr.data hc]
    · rw [if_neg hc] at h
      simpa [Option.isSome_iff_exists] using h
  · intro h
    unfold validate_cron_expression
    by_cases hc : expr.data = [] ∨ pyStripChars expr.data = []
    · rw [if_pos hc]
    · rw [if_neg hc, h]
      rfl

theorem validate_true_parse_isSome (expr : String)
    (h : validate_cron_expression expr = true) : (parseCron expr).isSome = true := by
  cases hp : parseCron expr with
  | none =>
    have := (validate_false_iff_parse_none expr).2 hp
    rw [h] at this
    cases this
  | some c => rfl

/-! ## Task executor

`TaskExecutor` (task.py lines 151-333).  An `asyncio.Task` is modelled by its
observable flags; Python dicts of running tasks become association lists.
The demo task bodies (`_execute_manual_task` etc.) merely sleep and return a
fixed payload, and the spec says real bodies are pluggable, so the body is a
parameter mapping the dispatched task type to an outcome: a payload, an
ordinary exception (`Exception` subclass), or cancellation
(`asyncio.CancelledError`, which on the targeted Python versions is a
`BaseException` and therefore NOT caught by `except Exception`). -/

/-- The engine's `Task` row (fields used by `task.py`). -/
structure Task where
  task_id : Nat
  task_name : String
  trigger_method : String
  cron_expression : Option String
deriving DecidableEq, Repr

/-- Observable state of an `asyncio.Task` object: whether it has finished,
whether `cancel()` has been requested on it, and whether it finished by
cancellation (`Task.cancelled()` is true iff `done ∧ finishedByCancel`). -/
structure AsyncTask where
  done : Bool
  cancelRequested : Bool
  finishedByCancel : Bool
deriving DecidableEq, Repr

/-- The dict returned by `_do_execute_task`: `error` is the `"error"` key
(present only on the failure path), `payload` the `"result"` key (present
only on the success path). -/
structure ExecResult where
  success : Bool
  start_time : Int
  end_time : Int
  duration_seconds : Int
  payload : Option String
  error : Option String
  message : String
deriving DecidableEq, Repr

/-- Outcome of one task body: normal payload, an `Exception`, or an
`asyncio.CancelledError` delivered during the body's awaits. -/
inductive BodyOutcome where
  | ok (payload : String)
  | err (msg : String)
  | cancelled
deriving DecidableEq, Repr

/-- Outcome of `_do_execute_task`: either it returns a result dict, or a
`CancelledError` escapes it (not caught by its `except Exception`). -/
inductive DoExecOutcome where
  | result (r : ExecResult)
  | raisedCancelled
deriving DecidableEq, Repr

/-- Outcome of `execute_task` as seen by its caller. -/
inductive ExecCall where
  | returned (r : ExecResult)
  | raised (msg : String)
  | raisedCancelled
deriving DecidableEq, Repr

/-- The trigger-method dispatch of `_do_execute_task` (task.py lines 207-215):
a known method runs its body, an unknown one raises
`Exception("不支持的触发方式: ...")` inside the `try`. -/
def dispatchBody (t : Task) (body : String → BodyOutcome) : BodyOutcome :=
  if t.trigger_method = "手动触发" then body "manual"
  else if t.trigger_method = "定时触发" then body "scheduled"
  else if t.trigger_method = "事件触发" then body "event"
  else BodyOutcome.err ("不支持的触发方式: " ++ t.trigger_method)

/-- `TaskExecutor._do_execute_task` (task.py lines 194-240): successful bodies
yield a success dict, an `Exception` is caught and captured into a failure
dict, and a `CancelledError` escapes uncaught. -/
def doExecuteTask (t : Task) (body : String → BodyOutcome)
    (startT endT : Int) : DoExecOutcome :=
  match dispatchBody t body with
  | BodyOutcome.ok p =>
      DoExecOutcome.result
        ⟨true, startT, endT, endT - startT, some p, none, "任务执行成功"⟩
  | BodyOutcome.err m =>
      DoExecOutcome.result
        ⟨false, startT, endT, endT - startT, none, some m, "任务执行失败"⟩
  | BodyOutcome.cancelled => DoExecOutcome.raisedCancelled

/-- Common tail of `execute_task` once the already-running check has passed:
create the execution task, install it in `running_tasks`, await it, and in
`finally` delete the entry (the installed task is done by then; a cancelled
run finished by cancellation). -/
def runAndCleanup (st : List (Nat × AsyncTask)) (t : Task)
    (body : String → BodyOutcome) (startT endT : Int) :
    ExecCall × List (Nat × AsyncTask) :=
  match doExecuteTask t body startT endT with
  | DoExecOutcome.result r =>
      (ExecCall.returned r,
        eraseKey (insertKey st t.task_id ⟨true, false, false⟩) t.task_id)
  | DoExecOutcome.raisedCancelled =>
      (ExecCall.raisedCancelled,
        eraseKey (insertKey st t.task_id ⟨true, true, true⟩) t.task_id)

/-- `TaskExecutor.execute_task` (task.py lines 157-192).  If a not-yet-done
task is already installed for this id, `Exception("任务已在运行中")` is raised;
the `except` re-raises it and the `finally` clause still runs — deleting
whatever entry is installed under this id, i.e. the FIRST run's handle. -/
def execute_task (st : List (Nat × AsyncTask)) (t : Task)
    (body : String → BodyOutcome) (startT endT : Int) :
    ExecCall × List (Nat × AsyncTask) :=
  match lookupKey st t.task_id with
  | some h =>
      if h.done = false then
        (ExecCall.raised "任务已在运行中", eraseKey st t.task_id)
      else runAndCleanup st t body startT endT
  | none => runAndCleanup st t body startT endT

/-- `TaskExecutor.stop_task` (task.py lines 294-322): a present, not-done task
is cancelled, awaited (the `CancelledError` is caught), deleted, and `True`
returned; otherwise `False` with the dict unchanged. -/
def stop_task (st : List (Nat × AsyncTask)) (task_id : Nat) :
    Bool × List (Nat × AsyncTask) :=
  match lookupKey st task_id with
  | some h =>
      if h.done = false then (true, eraseKey st task_id)
      else (false, st)
  | none => (false, st)

/-- One entry of the `get_running_tasks` snapshot. -/
structure RunningInfo where
  task_id : Nat
  is_running : Bool
  is_cancelled : Bool
deriving DecidableEq, Repr

/-- `asyncio.Task.cancelled()`: finished, and finished by cancellation. -/
def asyncCancelled (t : AsyncTask) : Bool := t.done && t.finishedByCancel

/-- `TaskExecutor.get_running_tasks` (task.py lines 324-333):
`is_cancelled` is `task.cancelled() if task.done() else False`. -/
def get_running_tasks (running_tasks : List (Nat × AsyncTask)) :
    List (Nat × RunningInfo) :=
  running_tasks.map (fun p =>
    (p.1, ⟨p.1, !p.2.done, if p.2.done then asyncCancelled p.2 else false⟩))

/-! ## Task scheduler

`TaskScheduler` (task.py lines 336-439).  `scheduled_tasks` maps a task id to
its current recurrence-loop object; the model additionally keeps a registry
of every loop object ever created (asyncio task objects outlive their map
entry) and a trace of the primitive actions each call performs.
`unschedule_task` and `schedule_task` are plain synchronous methods (`def`,
not `async def`): they contain no `await`, which the action trace records. -/

inductive SchedAction where
  | cancelLoop (loop_id : Nat)
  | awaitLoop (loop_id : Nat)
  | removeEntry (task_id : Nat)
  | createLoop (loop_id : Nat)
  | installEntry (task_id : Nat) (loop_id : Nat)
deriving DecidableEq, Repr

structure SchedulerState where
  scheduled : List (Nat × Nat)       -- task id ↦ id of its current loop object
  loops : List (Nat × AsyncTask)     -- every loop object ever created
  nextLoopId : Nat
deriving DecidableEq, Repr

/-- `task.cancel()` on loop object `lid`: request cancellation. -/
def setCancel (loops : List (Nat × AsyncTask)) (lid : Nat) :
    List (Nat × AsyncTask) :=
  loops.map (fun p =>
    if p.1 = lid then (p.1, { p.2 with cancelRequested := true }) else p)

/-- `TaskScheduler.unschedule_task` (task.py lines 405-428): cancel the loop,
delete the map entry, return `True`; `False` when no entry exists.  It never
awaits the cancelled loop. -/
def unschedule_task (st : SchedulerState) (task_id : Nat) :
    Bool × SchedulerState × List SchedAction :=
  match lookupKey st.scheduled task_id with
  | some lid =>
      (true,
        { st with
            scheduled := eraseKey st.scheduled task_id,
            loops := setCancel st.loops lid },
        [SchedAction.cancelLoop lid, SchedAction.removeEntry task_id])
  | none => (false, st, [])

/-- `TaskScheduler.schedule_task` (task.py lines 343-374): reject non-scheduled
or cron-less tasks, reject invalid cron expressions, otherwise unschedule any
existing loop for the id and install a freshly created loop. -/
def schedule_task (st : SchedulerState) (t : Task) :
    Bool × SchedulerState × List SchedAction :=
  match t.cron_expression with
  | none => (false, st, [])
  | some ce =>
      if t.trigger_method ≠ "定时触发" ∨ ce = "" then (false, st, [])
      else if validate_cron_expression ce = false then (false, st, [])
      else
        let u := unschedule_task st t.task_id
        let st1 := u.2.1
        (true,
          { scheduled := insertKey st1.scheduled t.task_id st1.nextLoopId,
            loops := insertKey st1.loops st1.nextLoopId ⟨false, false, false⟩,
            nextLoopId := st1.nextLoopId + 1 },
          u.2.2 ++ [SchedAction.createLoop st1.nextLoopId,
            SchedAction.installEntry t.task_id st1.nextLoopId])

/-- One iteration's inputs to `_schedule_loop` (task.py lines 376-403):
whether cancellation has been delivered at the iteration's first await,
the computed next run time, and the outcome of the `execute_task` call
(`Except.error` for any caught `Exception`).  The output is the list of
firings actually performed: cancellation exits via `except CancelledError`
before firing, an uncomputable next run time `break`s the loop, and an
execution error is logged and the loop continues. -/
def schedule_loop_run :
    List (Bool × Option Nat × Except String ExecResult) →
      List (Except String ExecResult)
  | [] => []
  | (cancelled, nextRun, r) :: rest =>
      if cancelled then []
      else
        match nextRun with
        | none => []
        | some _ => r :: schedule_loop_run rest

/-- One entry of the `get_scheduled_tasks` snapshot. -/
structure ScheduledInfo where
  task_id : Nat
  is_scheduled : Bool
  is_cancelled : Bool
deriving DecidableEq, Repr

/-- `TaskScheduler.get_scheduled_tasks` (task.py lines 430-439). -/
def get_scheduled_tasks (scheduled_tasks : List (Nat × AsyncTask)) :
    List (Nat × ScheduledInfo) :=
  scheduled_tasks.map (fun p =>
    (p.1, ⟨p.1, !p.2.done, if p.2.done then asyncCancelled p.2 else false⟩))

/-! ## Task validator (`TaskValidator`, task.py lines 442-540) -/

/-- The forbidden special characters of `validate_task_name`, in source
order: `< > " ' & \ / |` (quote, apostrophe and backslash written by code
point). -/
def invalidNameChars : List Char :=
  ['<', '>', Char.ofNat 34, Char.ofNat 39, '&', Char.ofNat 92, '/', '|']

/-- The checks of `validate_task_name` applied after stripping (length
bounds, then the special-character scan in source order). -/
def nameBodyChecks (t : List Char) : Bool × String :=
  if t.length < 2 then (false, "任务名称长度不能少于2个字符")
  else if t.length > 255 then (false, "任务名称长度不能超过255个字符")
  else
    match invalidNameChars.find? (fun c => t.contains c) with
    | some c => (false, "任务名称不能包含特殊字符: " ++ String.singleton c)
    | none => (true, "")

/-- `TaskValidator.validate_task_name` (task.py lines 445-473) on the
character list of the name. -/
def validateNameChars (cs : List Char) : Bool × String :=
  if cs = [] ∨ pyStripChars cs = [] then (false, "任务名称不能为空")
  else nameBodyChecks (pyStripChars cs)

def validate_task_name (task_name : String) : Bool × String :=
  validateNameChars task_name.data

/-- The reserved ports rejected by `validate_port`. -/
def reservedPorts : List Int := [22, 23, 25, 53, 80, 110, 443, 993, 995]

/-- `TaskValidator.validate_port` (task.py lines 475-500): `None` is valid;
out-of-range and reserved ports are rejected. -/
def validate_port (port : Option Int) : Bool × String :=
  match port with
  | none => (true, "")
  | some p =>
      if p < 1 ∨ p > 65535 then (false, "端口号必须在1-65535之间")
      else if reservedPorts.contains p then
        (false, "端口号 " ++ toString p ++ " 为系统保留端口，请使用其他端口")
      else (true, "")

def valid_methods : List String := ["手动触发", "定时触发", "事件触发"]

/-- `TaskValidator.validate_task_data` (task.py lines 502-540): name, then
trigger method, then port, then (for scheduled tasks) the cron expression;
the first failing check is returned. -/
def validate_task_data (task_name trigger_method : String) (port : Option Int)
    (cron_expression : Option String) : Bool × String :=
  let r1 := validate_task_name task_name
  if r1.1 = false then (false, r1.2)
  else if valid_methods.contains trigger_method = false then
    (false, "无效的触发方式: " ++ trigger_method)
  else
    let r2 := validate_port port
    if r2.1 = false then (false, r2.2)
    else if trigger_method = "定时触发" then
      match cron_expression with
      | none => (false, "定时触发任务必须提供cron表达式")
      | some ce =>
          if ce = "" then (false, "定时触发任务必须提供cron表达式")
          else if validate_cron_expression ce = false then
            (false, "cron表达式格式不正确")
          else (true, "")
    else (true, "")

/-! ## Statistics calculator (`TaskStatisticsCalculator`, task.py 543-621)

Python floats are modelled as rationals; `round(x, 2)` as round-half-to-even
at two decimals. -/

/-- Floor of a rational (via flooring integer division). -/
def ratFloor (q : ℚ) : Int := Int.fdiv q.num q.den

/-- Round-half-to-even to an integer (Python `round` semantics on exact
values). -/
def roundHalfEven (q : ℚ) : Int :=
  let n := ratFloor q
  let r := q - (n : ℚ)
  if r < 1/2 then n
  else if 1/2 < r then n + 1
  else if n % 2 = 0 then n else n + 1

/-- Python `round(x, 2)`. -/
def pyRound2 (q : ℚ) : ℚ := (roundHalfEven (q * 100) : ℚ) / 100

/-- Lexicographic code-point comparison (Python string `<=`). -/
def lexLe : List Char → List Char → Bool
  | [], _ => true
  | _ :: _, [] => false
  | a :: as, b :: bs =>
    if a.toNat < b.toNat then true
    else if b.toNat < a.toNat then false
    else lexLe as bs

def strLe (a b : String) : Bool := lexLe a.data b.data

/-- Insertion sort on strings (Python `sorted` on distinct date keys). -/
def insertSorted (s : String) : List String → List String
  | [] => [s]
  | x :: xs => if strLe s x then s :: x :: xs else x :: insertSorted s xs

def sortStrings : List String → List String
  | [] => []
  | x :: xs => insertSorted x (sortStrings xs)

/-- Python `executions_by_date[date]` (keys always come from the dict). -/
def countOf (m : List (String × Nat)) (d : String) : Nat :=
  (m.find? (fun p => p.1 = d)).elim 0 Prod.snd

/-- Lines 600-621 of `get_execution_trend`: halve the recent dates, compare
average counts, classify, and return the rounded change rate. -/
def trendCore (m : List (String × Nat)) (recent_dates : List String) :
    String × ℚ :=
  let first_half := recent_dates.take (recent_dates.length / 2)
  let second_half := recent_dates.drop (recent_dates.length / 2)
  let first_avg : ℚ :=
    ((first_half.map (fun d => (countOf m d : ℚ))).sum) / (first_half.length : ℚ)
  let second_avg : ℚ :=
    ((second_half.map (fun d => (countOf m d : ℚ))).sum) / (second_half.length : ℚ)
  let change_rate : ℚ :=
    if first_avg = 0 then (if 0 < second_avg then 100 else 0)
    else ((second_avg - first_avg) / first_avg) * 100
  let trend :=
    if 10 < change_rate then "increasing"
    else if change_rate < -10 then "decreasing"
    else "stable"
  (trend, pyRound2 change_rate)

/-- `TaskStatisticsCalculator.get_execution_trend` (task.py lines 577-621). -/
def get_execution_trend (executions_by_date : List (String × Nat)) :
    String × ℚ :=
  if executions_by_date = [] then ("stable", 0)
  else
    let dates := sortStrings (executions_by_date.map Prod.fst)
    if dates.length < 2 then ("stable", 0)
    else
      let recent_dates :=
        if 7 ≤ dates.length then dates.drop (dates.length - 7) else dates
      if recent_dates.length < 2 then ("stable", 0)
      else trendCore executions_by_date recent_dates

/-- The trend computation as claim C8 words it: with fewer than 2 distinct
dates return stable/0; otherwise take the most recent up-to-7 dates of the
sorted date list, split into first and second halves, and compare averages. -/
def specExecutionTrend (byDate : List (String × Nat)) : String × ℚ :=
  let dates := sortStrings (byDate.map Prod.fst)
  if dates.length < 2 then ("stable", 0)
  else trendCore byDate (dates.drop (dates.length - 7))

theorem setCancel_cons (a : Nat) (v : AsyncTask) (rest : List (Nat × AsyncTask))
    (lid : Nat) :
    setCancel ((a, v) :: rest) lid =
      (if a = lid then (a, { v with cancelRequested := true }) else (a, v)) ::
        setCancel rest lid := rfl

theorem lookupKey_setCancel_self (l : List (Nat × AsyncTask)) (lid : Nat) :
    lookupKey (setCancel l lid) lid =
      (lookupKey l lid).map (fun h => { h with cancelRequested := true }) := by
  induction l with
  | nil => rfl
  | cons p rest ih =>
    cases p with
    | mk a v =>
      rw [setCancel_cons]
      by_cases h : a = lid
      · rw [if_pos h]
        simp [lookupKey, h]
      · rw [if_neg h]
        simpa [lookupKey, h] using ih

theorem lookupKey_setCancel_ne (l : List (Nat × AsyncTask)) (lid k : Nat)
    (h : k ≠ lid) :
    lookupKey (setCancel l lid) k = lookupKey l k := by
  induction l with
  | nil => rfl
  | cons p rest ih =>
    cases p with
    | mk a v =>
      rw [setCancel_cons]
      by_cases ha : a = lid
      · rw [if_pos ha]
        have : ¬a = k := fun hh => h (hh ▸ (ha ▸ rfl))
        simpa [lookupKey, this] using ih
      · rw [if_neg ha]
        by_cases hk : a = k
        · simp [lookupKey, hk]
        · simpa [lookupKey, hk] using ih

theorem int_fdiv_one (m : Int) : Int.fdiv m 1 = m := by
  cases m with
  | ofNat n =>
    cases n with
    | zero => rfl
    | succ k =>
      show Int.ofNat (Nat.succ k / 1) = Int.ofNat (Nat.succ k)
      rw [Nat.div_one]
  | negSucc n =>
    show Int.negSucc (n / 1) = Int.negSucc n
    rw [Nat.div_one]

theorem ratFloor_intCast (m : ℤ) : ratFloor (m : ℚ) = m := by
  unfold ratFloor
  rw [Rat.num_intCast, Rat.den_intCast]
  exact int_fdiv_one m

theorem roundHalfEven_intCast (m : ℤ) : roundHalfEven (m : ℚ) = m := by
  unfold roundHalfEven
  rw [ratFloor_intCast]
  norm_num

theorem pyRound2_intCast (m : ℤ) : pyRound2 (m : ℚ) = (m : ℚ) := by
  unfold pyRound2
  have h : ((m : ℚ) * 100) = ((m * 100 : ℤ) : ℚ) := by push_cast; ring
  rw [h, roundHalfEven_intCast]
  push_cast
  rw [mul_div_assoc]
  norm_num

theorem pyRound2_hundred : pyRound2 (100 : ℚ) = 100 := by
  have h : (100 : ℚ) = ((100 : ℤ) : ℚ) := by norm_num
  rw [h, pyRound2_intCast]

/-! ## Claim theorems -/

set_option maxRecDepth 100000

/-- C6: For every expression and base time, `get_next_run_time` returns the
earliest time strictly after the base that satisfies the expression, and
returns no result exactly when validation or the internal computation fails
(never raising, being a total function); concretely,
`NextRunTime("0 0 * * *", 2025-01-01T10:00)` is 2025-01-02T00:00,
`Validate("")` is false and `Validate("*/5 * * * *")` is true. -/
theorem c6_next_run_time_contract :
    (∀ (expr : String) (base r : Nat), get_next_run_time expr base = some r →
        base < r ∧ cronMatchesExpr expr r = true ∧
          ∀ u, base < u → u < r → cronMatchesExpr expr u = false)
    ∧ (∀ (expr : String) (base : Nat),
        get_next_run_time expr base = none ↔
          (validate_cron_expression expr = false ∨
            nextComputationFails expr base = true))
    ∧ get_next_run_time "0 0 * * *" (minutesOf 2025 1 1 10 0) =
        some (minutesOf 2025 1 2 0 0)
    ∧ validate_cron_expression "" = false
    ∧ validate_cron_expression "*/5 * * * *" = true := by
  refine ⟨?_, ?_, by decide, by decide, by decide⟩
  · intro expr base r h
    unfold get_next_run_time at h
    by_cases hv : validate_cron_expression expr = false
    · rw [if_pos hv] at h
      cases h
    · rw [if_neg hv] at h
      cases hp : parseCron expr with
      | none =>
        rw [hp] at h
        cases h
      | some c =>
        rw [hp] at h
        obtain ⟨h1, h2, h3⟩ := searchNext_sound c searchFuel base r h
        exact ⟨h1, by simp [cronMatchesExpr, hp, h2],
          fun u hu1 hu2 => by simp [cronMatchesExpr, hp, h3 u hu1 hu2]⟩
  · intro expr base
    unfold get_next_run_time
    by_cases hv : validate_cron_expression expr = false
    · simp [hv]
    · rw [if_neg hv]
      cases hp : parseCron expr with
      | none =>
        exact absurd ((validate_false_iff_parse_none expr).2 hp) hv
      | some c =>
        simp only [nextComputationFails, hp, hv, false_or]
        cases hs : searchNext c base searchFuel with
        | none => simp
        | some r => simp

/-- C6 witness: the general next-run soundness statement applied to the
concrete expression `"0 0 * * *"` and base 2025-01-01T10:00, with the
`get_next_run_time = some _` hypothesis discharged by the concrete conjunct
of the theorem itself. -/
theorem c6_next_run_time_contract_witness :
    minutesOf 2025 1 1 10 0 < minutesOf 2025 1 2 0 0 ∧
      cronMatchesExpr "0 0 * * *" (minutesOf 2025 1 2 0 0) = true :=
  ⟨(c6_next_run_time_contract.1 "0 0 * * *" _ _ c6_next_run_time_contract.2.2.1).1,
    (c6_next_run_time_contract.1 "0 0 * * *" _ _ c6_next_run_time_contract.2.2.1).2.1⟩

/-- C5: a step of the scheduler's wait-then-fire loop terminates the loop
exactly when the next run time is not computable; a firing whose
`execute_task` call raises `任务已在运行中` (TaskAlreadyRunning) or any other
`Exception` is logged and the loop continues; and as long as every step is
uncancelled with a computable next run time the loop never terminates by
itself (it processes every step). -/
theorem c5_loop_termination_policy :
    (∀ (r : Except String ExecResult)
        (rest : List (Bool × Option Nat × Except String ExecResult)),
        schedule_loop_run ((false, none, r) :: rest) = [])
    ∧ (∀ (t : Nat) (e : String)
        (rest : List (Bool × Option Nat × Except String ExecResult)),
        schedule_loop_run ((false, some t, Except.error e) :: rest) =
          Except.error e :: schedule_loop_run rest)
    ∧ (∀ (t : Nat)
        (rest : List (Bool × Option Nat × Except String ExecResult)),
        schedule_loop_run ((false, some t, Except.error "任务已在运行中") :: rest) =
          Except.error "任务已在运行中" :: schedule_loop_run rest)
    ∧ (∀ (steps : List (Bool × Option Nat × Except String ExecResult)),
        (∀ s ∈ steps, s.1 = false ∧ s.2.1.isSome = true) →
          schedule_loop_run steps = steps.map (fun s => s.2.2)) := by
  refine ⟨fun r rest => rfl, fun t e rest => rfl, fun t rest => rfl, ?_⟩
  intro steps h
  induction steps with
  | nil => rfl
  | cons s rest ih =>
    obtain ⟨hc, hn⟩ := h s (by simp)
    cases s with
    | mk b p =>
      cases p with
      | mk nr r =>
        simp only at hc hn
        subst hc
        cases nr with
        | none => cases hn
        | some t =>
          simp only [schedule_loop_run, if_neg (by simp : ¬(false = true)), List.map]
          exact congrArg _ (ih (fun x hx => h x (by simp [hx])))

/-- C5 witness: a two-step trace with a failed first firing is processed in
full. -/
theorem c5_loop_termination_policy_witness :
    schedule_loop_run
        [(false, some 1, Except.error "任务已在运行中"),
         (false, some 2, Except.ok ⟨true, 0, 1, 1, some "manual", none, "任务执行成功"⟩)] =
      [Except.error "任务已在运行中",
        Except.ok ⟨true, 0, 1, 1, some "manual", none, "任务执行成功"⟩] :=
  c5_loop_termination_policy.2.2.2 _ (by decide)

/-- A manual-trigger task with id 1 (concrete input for C1/C3). -/
def demoManualTask : Task := ⟨1, "数据处理", "手动触发", none⟩

/-- A task whose trigger method is none of the three known values. -/
def badTriggerTask : Task := ⟨2, "坏任务", "未知方式", none⟩

/-- C1: calling `execute_task` for a task id whose previous run is still in
flight raises `任务已在运行中` (TaskAlreadyRunning) — but, contrary to the
claim's "no side effects", the `finally` clause deletes the FIRST run's
handle from `running_tasks`, and a subsequent duplicate call is then accepted
instead of rejected. -/
theorem c1_duplicate_execute_clobbers_first_handle :
    execute_task [(1, ⟨false, false, false⟩)] demoManualTask
        (fun _ => BodyOutcome.ok "manual") 0 2 =
      (ExecCall.raised "任务已在运行中", []) ∧
    (execute_task [] demoManualTask (fun _ => BodyOutcome.ok "manual") 0 2).1 =
      ExecCall.returned ⟨true, 0, 2, 2, some "manual", none, "任务执行成功"⟩ := by
  constructor
  · rfl
  · rfl

/-- C3 counterexample: when the running body is cancelled (the outcome `Stop`
produces), `execute_task` does NOT return an `ExecutionResult` with
`success = false` — the `CancelledError` escapes both `except Exception`
handlers and propagates out of the call (the handle is still removed). -/
theorem c3_cancellation_raises_counterexample :
    execute_task [] demoManualTask (fun _ => BodyOutcome.cancelled) 0 2 =
      (ExecCall.raisedCancelled, []) := rfl

/-- C3 amended: cancellation of a running task does not produce an
`ExecutionResult`: `_do_execute_task`'s `except Exception` does not catch
`CancelledError`, so `execute_task` re-raises the cancellation while its
`finally` still removes the handle; `stop_task` on a running handle returns
`True` and removes the handle; cancellation remains distinguishable from an
ordinary body failure, which IS returned as a `success = false` result. -/
theorem c3_cancellation_outcome_amended :
    (∀ (t : Task) (body : String → BodyOutcome) (s e : Int),
        dispatchBody t body = BodyOutcome.cancelled →
          doExecuteTask t body s e = DoExecOutcome.raisedCancelled)
    ∧ (∀ (st : List (Nat × AsyncTask)) (t : Task) (body : String → BodyOutcome)
        (s e : Int), lookupKey st t.task_id = none →
        dispatchBody t body = BodyOutcome.cancelled →
          (execute_task st t body s e).1 = ExecCall.raisedCancelled ∧
          lookupKey (execute_task st t body s e).2 t.task_id = none)
    ∧ (∀ (st : List (Nat × AsyncTask)) (task_id : Nat) (h : AsyncTask),
        lookupKey st task_id = some h → h.done = false →
          stop_task st task_id = (true, eraseKey st task_id))
    ∧ (∀ (st : List (Nat × AsyncTask)) (t : Task) (body : String → BodyOutcome)
        (s e : Int) (m : String), lookupKey st t.task_id = none →
        dispatchBody t body = BodyOutcome.err m →
          (execute_task st t body s e).1 =
            ExecCall.returned ⟨false, s, e, e - s, none, some m, "任务执行失败"⟩ ∧
          ExecCall.returned ⟨false, s, e, e - s, none, some m, "任务执行失败"⟩ ≠
            ExecCall.raisedCancelled) := by
  refine ⟨?_, ?_, ?_, ?_⟩
  · intro t body s e hd
    unfold doExecuteTask
    rw [hd]
  · intro st t body s e hlk hd
    unfold execute_task
    rw [hlk]
    unfold runAndCleanup doExecuteTask
    rw [hd]
    exact ⟨rfl, lookupKey_eraseKey_self _ _⟩
  · intro st task_id h hlk hdone
    unfold stop_task
    rw [hlk]
    simp [hdone]
  · intro st t body s e m hlk hd
    unfold execute_task
    rw [hlk]
    unfold runAndCleanup doExecuteTask
    rw [hd]
    exact ⟨rfl, by simp⟩

/-- C3 witness: `stop_task` on a concrete running handle. -/
theorem c3_cancellation_outcome_amended_witness :
    stop_task [(7, ⟨false, false, false⟩)] 7 = (true, []) :=
  c3_cancellation_outcome_amended.2.2.1 [(7, ⟨false, false, false⟩)] 7
    ⟨false, false, false⟩ rfl rfl

/-- C4: a task body that raises an `Exception` — including the raise for an
unsupported trigger method — has the error captured into the result dict
(`success = false`, the error message present, start/end times and
`duration = end - start` recorded) and returned, not propagated out of
`execute_task`; and every result dict has an error message present iff
`success = false`. -/
theorem c4_body_error_captured :
    (∀ (st : List (Nat × AsyncTask)) (t : Task) (body : String → BodyOutcome)
        (s e : Int) (m : String), lookupKey st t.task_id = none →
        dispatchBody t body = BodyOutcome.err m →
          (execute_task st t body s e).1 =
            ExecCall.returned ⟨false, s, e, e - s, none, some m, "任务执行失败"⟩)
    ∧ (∀ (t : Task) (body : String → BodyOutcome),
        t.trigger_method ≠ "手动触发" → t.trigger_method ≠ "定时触发" →
        t.trigger_method ≠ "事件触发" →
          dispatchBody t body =
            BodyOutcome.err ("不支持的触发方式: " ++ t.trigger_method))
    ∧ (∀ (t : Task) (body : String → BodyOutcome) (s e : Int) (r : ExecResult),
        doExecuteTask t body s e = DoExecOutcome.result r →
          ((r.error ≠ none ↔ r.success = false) ∧
            r.duration_seconds = r.end_time - r.start_time ∧
            r.start_time = s ∧ r.end_time = e)) := by
  refine ⟨?_, ?_, ?_⟩
  · intro st t body s e m hlk hd
    unfold execute_task
    rw [hlk]
    unfold runAndCleanup doExecuteTask
    rw [hd]
  · intro t body h1 h2 h3
    unfold dispatchBody
    rw [if_neg h1, if_neg h2, if_neg h3]
  · intro t body s e r h
    unfold doExecuteTask at h
    cases hd : dispatchBody t body with
    | ok p =>
      rw [hd] at h
      cases h
      simp
    | err m =>
      rw [hd] at h
      cases h
      simp
    | cancelled =>
      rw [hd] at h
      cases h

/-- C4 witness: an unsupported trigger method on a concrete task is captured
as a returned failure result. -/
theorem c4_body_error_captured_witness :
    (execute_task [] badTriggerTask (fun _ => BodyOutcome.ok "x") 0 3).1 =
      ExecCall.returned ⟨false, 0, 3, 3 - 0, none,
        some "不支持的触发方式: 未知方式", "任务执行失败"⟩ :=
  c4_body_error_captured.1 [] badTriggerTask (fun _ => BodyOutcome.ok "x") 0 3
    "不支持的触发方式: 未知方式" rfl rfl

/-- A scheduled-trigger task with id 1 and a valid cron expression. -/
def demoScheduledTask : Task := ⟨1, "定时任务", "定时触发", some "*/5 * * * *"⟩

/-- Scheduler state with one installed, still-running recurrence loop
(loop object 0) for task id 1. -/
def c2State : SchedulerState := ⟨[(1, 0)], [(0, ⟨false, false, false⟩)], 1⟩

/-- C2 counterexample: re-`Schedule` for an id with a live loop performs
`cancel` + entry removal + create + install and NO await of the old loop:
in the very state in which the new loop (object 1) is already installed, the
old loop object 0 is cancel-requested but not finished (`done = false`) —
the old loop was not "cancelled and awaited ... before installing the new
one" as the claim states. -/
theorem c2_reschedule_counterexample :
    (schedule_task c2State demoScheduledTask).1 = true ∧
    (schedule_task c2State demoScheduledTask).2.2 =
      [SchedAction.cancelLoop 0, SchedAction.removeEntry 1,
        SchedAction.createLoop 1, SchedAction.installEntry 1 1] ∧
    SchedAction.awaitLoop 0 ∉ (schedule_task c2State demoScheduledTask).2.2 ∧
    lookupKey (schedule_task c2State demoScheduledTask).2.1.loops 0 =
      some ⟨false, true, false⟩ ∧
    lookupKey (schedule_task c2State demoScheduledTask).2.1.scheduled 1 =
      some 1 := by
  refine ⟨by decide, by decide, ?_, by decide, by decide⟩
  intro hmem
  have : (schedule_task c2State demoScheduledTask).2.2 =
      [SchedAction.cancelLoop 0, SchedAction.removeEntry 1,
        SchedAction.createLoop 1, SchedAction.installEntry 1 1] := by decide
  rw [this] at hmem
  simp at hmem

/-- C2 amended: a successful re-`Schedule` for an id with an existing loop
cancels the old loop (its `done` flag untouched — it is never awaited, the
trace contains no await action) and replaces the map entry by the freshly
created loop before returning, so exactly the new loop is installed for the
id; and a recurrence loop that observes its cancellation at an await exits
without producing any further firing. -/
theorem c2_reschedule_replaces_loop (st : SchedulerState) (t : Task)
    (ce : String) (lidOld : Nat) (ls : AsyncTask)
    (hm : t.trigger_method = "定时触发") (hc : t.cron_expression = some ce)
    (hce : ce ≠ "") (hv : validate_cron_expression ce = true)
    (hmap : lookupKey st.scheduled t.task_id = some lidOld)
    (hloop : lookupKey st.loops lidOld = some ls)
    (hfresh : lidOld ≠ st.nextLoopId) :
    (schedule_task st t).1 = true ∧
    lookupKey (schedule_task st t).2.1.loops lidOld =
      some { ls with cancelRequested := true } ∧
    lookupKey (schedule_task st t).2.1.scheduled t.task_id =
      some st.nextLoopId ∧
    SchedAction.awaitLoop lidOld ∉ (schedule_task st t).2.2 ∧
    (∀ (nr : Option Nat) (r : Except String ExecResult)
        (rest : List (Bool × Option Nat × Except String ExecResult)),
      schedule_loop_run ((true, nr, r) :: rest) = []) := by
  have hsched : schedule_task st t =
      (true,
        { scheduled := insertKey (eraseKey st.scheduled t.task_id) t.task_id
            st.nextLoopId,
          loops := insertKey (setCancel st.loops lidOld) st.nextLoopId
            ⟨false, false, false⟩,
          nextLoopId := st.nextLoopId + 1 },
        [SchedAction.cancelLoop lidOld, SchedAction.removeEntry t.task_id,
          SchedAction.createLoop st.nextLoopId,
          SchedAction.installEntry t.task_id st.nextLoopId]) := by
    simp [schedule_task, hc, hm, hce, hv, unschedule_task, hmap]
  refine ⟨by rw [hsched], ?_, ?_, ?_, fun nr r rest => rfl⟩
  · rw [hsched]
    simp only
    rw [lookupKey_insertKey_ne _ _ _ _ hfresh, lookupKey_setCancel_self, hloop]
    rfl
  · rw [hsched]
    simp only
    rw [lookupKey_insertKey_self]
  · rw [hsched]
    simp only
    intro hmem
    simp at hmem

/-- C2 witness: the amended statement applied to the concrete one-loop
scheduler state. -/
theorem c2_reschedule_replaces_loop_witness :
    (schedule_task c2State demoScheduledTask).1 = true ∧
    lookupKey (schedule_task c2State demoScheduledTask).2.1.loops 0 =
      some ⟨false, true, false⟩ :=
  ⟨(c2_reschedule_replaces_loop c2State demoScheduledTask "*/5 * * * *" 0
      ⟨false, false, false⟩ rfl rfl (by decide) (by decide) rfl rfl
      (by decide)).1,
    (c2_reschedule_replaces_loop c2State demoScheduledTask "*/5 * * * *" 0
      ⟨false, false, false⟩ rfl rfl (by decide) (by decide) rfl rfl
      (by decide)).2.1⟩

/-- C10: in the `get_running_tasks` / `get_scheduled_tasks` snapshots,
`is_cancelled` is false for every entry whose underlying task has not
finished — even when cancellation has already been requested on it — and an
entry can only show `is_cancelled = true` once the task is done (no longer
running/scheduled). -/
theorem c10_snapshot_cancellation_visibility :
    (∀ (l : List (Nat × AsyncTask)) (p : Nat × RunningInfo),
        p ∈ get_running_tasks l → p.2.is_running = true →
          p.2.is_cancelled = false)
    ∧ (∀ (l : List (Nat × AsyncTask)) (tid : Nat) (t : AsyncTask),
        (tid, t) ∈ l → t.done = false →
          (tid, ⟨tid, true, false⟩) ∈ get_running_tasks l)
    ∧ (∀ (l : List (Nat × AsyncTask)) (p : Nat × RunningInfo),
        p ∈ get_running_tasks l → p.2.is_cancelled = true →
          p.2.is_running = false)
    ∧ (∀ (l : List (Nat × AsyncTask)) (p : Nat × ScheduledInfo),
        p ∈ get_scheduled_tasks l → p.2.is_scheduled = true →
          p.2.is_cancelled = false)
    ∧ (∀ (l : List (Nat × AsyncTask)) (tid : Nat) (t : AsyncTask),
        (tid, t) ∈ l → t.done = false →
          (tid, ⟨tid, true, false⟩) ∈ get_scheduled_tasks l)
    ∧ (∀ (l : List (Nat × AsyncTask)) (p : Nat × ScheduledInfo),
        p ∈ get_scheduled_tasks l → p.2.is_cancelled = true →
          p.2.is_scheduled = false) := by
  refine ⟨?_, ?_, ?_, ?_, ?_, ?_⟩
  · intro l p hp hrun
    obtain ⟨q, hq, rfl⟩ := List.mem_map.1 hp
    simp only at hrun ⊢
    have : q.2.done = false := by
      cases hqd : q.2.done
      · rfl
      · rw [hqd] at hrun; cases hrun
    rw [this]
    rfl
  · intro l tid t hm ht
    refine List.mem_map.2 ⟨(tid, t), hm, ?_⟩
    simp [ht]
  · intro l p hp hcan
    obtain ⟨q, hq, rfl⟩ := List.mem_map.1 hp
    simp only at hcan ⊢
    cases hqd : q.2.done
    · rw [hqd] at hcan; cases hcan
    · rfl
  · intro l p hp hrun
    obtain ⟨q, hq, rfl⟩ := List.mem_map.1 hp
    simp only at hrun ⊢
    have : q.2.done = false := by
      cases hqd : q.2.done
      · rfl
      · rw [hqd] at hrun; cases hrun
    rw [this]
    rfl
  · intro l tid t hm ht
    refine List.mem_map.2 ⟨(tid, t), hm, ?_⟩
    simp [ht]
  · intro l p hp hcan
    obtain ⟨q, hq, rfl⟩ := List.mem_map.1 hp
    simp only at hcan ⊢
    cases hqd : q.2.done
    · rw [hqd] at hcan; cases hcan
    · rfl

/-- C10 witness: a running task with cancellation already requested still
shows `is_cancelled = false` in the snapshot. -/
theorem c10_snapshot_cancellation_visibility_witness :
    (5, RunningInfo.mk 5 true false) ∈
      get_running_tasks [(5, ⟨false, true, false⟩)] :=
  c10_snapshot_cancellation_visibility.2.1 [(5, ⟨false, true, false⟩)] 5
    ⟨false, true, false⟩ (by decide) rfl

/-- C9: `validate_task_name` strips the name before any check — its result
depends only on the stripped character list — a whitespace-only name is
rejected as empty, and a name whose raw length exceeds 255 is accepted when
its stripped form is within bounds. -/
theorem c9_name_validation_on_stripped :
    (∀ a b : String, pyStripChars a.data = pyStripChars b.data →
        validate_task_name a = validate_task_name b)
    ∧ (∀ s : String, pyStripChars s.data = [] →
        validate_task_name s = (false, "任务名称不能为空"))
    ∧ ((List.replicate 300 ' ' ++ ['a', 'b']).length > 255 ∧
        validateNameChars (List.replicate 300 ' ' ++ ['a', 'b']) = (true, "")) := by
  have hcond : ∀ cs : List Char,
      validateNameChars cs =
        if pyStripChars cs = [] then (false, "任务名称不能为空")
        else nameBodyChecks (pyStripChars cs) := by
    intro cs
    unfold validateNameChars
    by_cases h0 : cs = []
    · subst h0
      rfl
    · by_cases hs : pyStripChars cs = []
      · rw [if_pos (Or.inr hs), if_pos hs]
      · rw [if_neg ?_, if_neg hs]
        intro hor
        rcases hor with h | h
        · exact h0 h
        · exact hs h
  refine ⟨?_, ?_, by decide, by decide⟩
  · intro a b h
    unfold validate_task_name
    rw [hcond, hcond, h]
  · intro s h
    unfold validate_task_name
    rw [hcond, if_pos h]

/-- C9 witness: a 302-character name (300 leading spaces) is accepted, value
computed through the strip-only-dependence equation of the theorem. -/
theorem c9_name_validation_on_stripped_witness :
    validate_task_name (String.mk (List.replicate 300 ' ' ++ ['a', 'b'])) =
      validate_task_name (String.mk ['a', 'b']) :=
  c9_name_validation_on_stripped.1 _ _ (by decide)

/-- C7: `validate_task_data` evaluates name → triggerMethod → port → cron in
that fixed order, returns the first failing check's `(false, reason)` without
evaluating the rest, requires a non-empty cron expression passing
`validate_cron_expression` exactly when the trigger method is `定时触发`,
and returns `(true, "")` when every check passes. -/
theorem c7_validate_task_data_order :
    (∀ (n tm : String) (p : Option Int) (c : Option String) (r : String),
        validate_task_name n = (false, r) →
          validate_task_data n tm p c = (false, r))
    ∧ (∀ (n tm : String) (p : Option Int) (c : Option String),
        (validate_task_name n).1 = true → valid_methods.contains tm = false →
          validate_task_data n tm p c = (false, "无效的触发方式: " ++ tm))
    ∧ (∀ (n tm : String) (p : Option Int) (c : Option String) (r : String),
        (validate_task_name n).1 = true → valid_methods.contains tm = true →
        validate_port p = (false, r) →
          validate_task_data n tm p c = (false, r))
    ∧ (∀ (n : String) (p : Option Int),
        (validate_task_name n).1 = true → (validate_port p).1 = true →
          validate_task_data n "定时触发" p none =
            (false, "定时触发任务必须提供cron表达式") ∧
          validate_task_data n "定时触发" p (some "") =
            (false, "定时触发任务必须提供cron表达式"))
    ∧ (∀ (n : String) (p : Option Int) (s : String),
        (validate_task_name n).1 = true → (validate_port p).1 = true →
        s ≠ "" → validate_cron_expression s = false →
          validate_task_data n "定时触发" p (some s) =
            (false, "cron表达式格式不正确"))
    ∧ (∀ (n tm : String) (p : Option Int) (c : Option String),
        (validate_task_name n).1 = true → valid_methods.contains tm = true →
        (validate_port p).1 = true →
        (tm = "定时触发" →
          ∃ s, c = some s ∧ s ≠ "" ∧ validate_cron_expression s = true) →
          validate_task_data n tm p c = (true, "")) := by
  refine ⟨?_, ?_, ?_, ?_, ?_, ?_⟩
  · intro n tm p c r h
    simp only [validate_task_data]
    rw [if_pos (show (validate_task_name n).1 = false by rw [h]), h]
  · intro n tm p c hn htm
    simp only [validate_task_data]
    rw [if_neg (by simp [hn]), if_pos htm]
  · intro n tm p c r hn htm hp
    simp only [validate_task_data]
    rw [if_neg (by simp [hn]), if_neg (by rw [htm]; decide),
      if_pos (show (validate_port p).1 = false by rw [hp]), hp]
  · intro n p hn hp
    constructor
    · simp only [validate_task_data]
      rw [if_neg (by simp [hn]), if_neg (by decide), if_neg (by simp [hp])]
      simp
    · simp only [validate_task_data]
      rw [if_neg (by simp [hn]), if_neg (by decide), if_neg (by simp [hp])]
      simp
  · intro n p s hn hp hs hv
    simp only [validate_task_data]
    rw [if_neg (by simp [hn]), if_neg (by decide), if_neg (by simp [hp])]
    simp [hs, hv]
  · intro n tm p c hn htm hp hc
    simp only [validate_task_data]
    rw [if_neg (by simp [hn]), if_neg (by rw [htm]; decide),
      if_neg (by simp [hp])]
    by_cases hd : tm = "定时触发"
    · obtain ⟨s, hcs, hs, hv⟩ := hc hd
      subst hcs
      rw [if_pos hd]
      simp [hs, hv]
    · rw [if_neg hd]

/-- C7 witness: the all-checks-pass case on the spec's own test vector
`("AB", Manual, nil, nil)`. -/
theorem c7_validate_task_data_order_witness :
    validate_task_data "AB" "手动触发" none none = (true, "") :=
  c7_validate_task_data_order.2.2.2.2.2 "AB" "手动触发" none none
    (by decide) (by decide) rfl
    (fun h => absurd h (by decide))

/-- C8: `get_execution_trend` coincides everywhere with the claim's
description (fewer than 2 distinct dates → `("stable", 0)`; otherwise the
most recent up-to-7 sorted dates are halved, averages compared,
`changeRate = (secondAvg - firstAvg)/firstAvg * 100` with the 0-denominator
convention, and the trend classified at the ±10 thresholds), and on the
concrete inputs `{}` and a two-date doubling history it returns
`("stable", 0)` and `("increasing", 100)`. -/
theorem c8_execution_trend_matches_spec :
    (∀ m : List (String × Nat), get_execution_trend m = specExecutionTrend m)
    ∧ get_execution_trend [] = ("stable", 0)
    ∧ get_execution_trend [("2025-01-01", 1)] = ("stable", 0)
    ∧ get_execution_trend [("2025-01-01", 1), ("2025-01-02", 2)] =
        ("increasing", 100) := by
  refine ⟨?_, rfl, rfl, ?_⟩
  case refine_2 =>
    have hc1 : countOf [("2025-01-01", 1), ("2025-01-02", 2)] "2025-01-01" = 1 := rfl
    have hc2 : countOf [("2025-01-01", 1), ("2025-01-02", 2)] "2025-01-02" = 2 := rfl
    simp +decide only [get_execution_trend, sortStrings, insertSorted, strLe, lexLe,
      trendCore, hc1, hc2]
    norm_num [hc1, hc2, pyRound2_hundred]
  intro m
  by_cases hm : m = []
  · subst hm
    simp [get_execution_trend, specExecutionTrend, sortStrings]
  · simp only [get_execution_trend, specExecutionTrend, if_neg hm]
    by_cases hd : (sortStrings (m.map Prod.fst)).length < 2
    · rw [if_pos hd, if_pos hd]
    · rw [if_neg hd, if_neg hd]
      by_cases h7 : 7 ≤ (sortStrings (m.map Prod.fst)).length
      · rw [if_pos h7]
        have hlen :
            ¬(List.drop ((sortStrings (m.map Prod.fst)).length - 7)
                (sortStrings (m.map Prod.fst))).length < 2 := by
          rw [List.length_drop]
          omega
        rw [if_neg hlen]
      · rw [if_neg h7]
        have h0 : (sortStrings (m.map Prod.fst)).length - 7 = 0 := by omega
        rw [h0, List.drop_zero, if_neg hd]

end TaskEngine
